import Mathlib

/-!
Shallow embedding of the arrayidx library (src/lib.rs).

Modelling conventions:
* `usize` components are modelled as `Nat` (the data model treats them as
  non-negative integers); the `axis as usize` bit-cast from `isize` is
  modelled explicitly by `usizeOfIsize`.
* A Rust panic (failed assertion, out-of-bounds slice index, `unreachable!`)
  is modelled as `none`; a normal return of `v` is `some v`.
* The fixed-rank types `Index0d` .. `Index5d` are `Unit` / `Nat` / nested
  pairs of `Nat`; `IndexNd` is a `List Nat` (its single `components` field).
-/

/-- The `axis as usize` cast in Rust: an `isize` reinterpreted mod 2^64. -/
def usizeOfIsize (a : Int) : Nat := (a % (2 ^ 64 : Int)).toNat

abbrev Index0d := Unit
abbrev Index1d := Nat
abbrev Index2d := Nat × Nat
abbrev Index3d := Nat × Nat × Nat
abbrev Index4d := Nat × Nat × Nat × Nat
abbrev Index5d := Nat × Nat × Nat × Nat × Nat
abbrev IndexNd := List Nat

namespace IndexNd

/-- `IndexNd::dim`: number of stored components. -/
def dim (x : IndexNd) : Nat := x.length

/-- `IndexNd::flat_len`: `len = 1; for d in 0..dim { len *= components[d] }`. -/
def flat_len (x : IndexNd) : Nat := x.foldl (· * ·) 1

/-- `IndexNd::index_at`: `self.components[axis as usize]`; out-of-bounds
indexing panics (`none`). -/
def index_at (x : IndexNd) (axis : Int) : Option Nat :=
  let u := usizeOfIsize axis
  if h : u < x.length then some (x.get ⟨u, h⟩) else none

/-- Accumulator form of the `IndexNd::to_packed_stride` loop: `cur` is the
running stride value `stride[d] = stride[d-1] * components[d-1]`, started
at `stride[0] = 1`. -/
def packed_aux : Nat → List Nat → List Nat
  | _, [] => []
  | cur, s0 :: rest => cur :: packed_aux (cur * s0) rest

/-- `IndexNd::to_packed_stride`. -/
def to_packed_stride (x : IndexNd) : IndexNd := packed_aux 1 x

/-- `IndexNd::is_packed`: `&self.to_packed_stride() == stride`. -/
def is_packed (x stride : IndexNd) : Bool := decide (to_packed_stride x = stride)

/-- `IndexNd::is_zero`. -/
def is_zero (x : IndexNd) : Bool := decide (∀ d ∈ x, d = 0)

/-- `IndexNd::inside`: `self.components[0]`, a panic (`none`) when empty. -/
def inside (x : IndexNd) : Option Nat := x.get? 0

/-- `IndexNd::outside`: `self.components[self.dim() - 1]`, a panic (`none`)
when empty (the subtraction underflows / the index is out of bounds). -/
def outside (x : IndexNd) : Option Nat := x.get? (x.length - 1)

/-- The iteration sequence of a Rust `for i in a..b` loop over `isize`. -/
def intRange (a b : Int) : List Int :=
  (List.range (b - a).toNat).map (fun (k : Nat) => a + (k : Int))

/-- A loop that pushes `self.index_at(i)` for each `i` in the list,
propagating the first panic. -/
def collect (x : IndexNd) : List Int → Option (List Nat)
  | [] => some []
  | i :: rest => do
    let v ← index_at x i
    let vs ← collect x rest
    pure (v :: vs)

/-- `IndexNd::splice_at`: prefix loop over `0..axis`, a singleton selection
when `axis < dim as isize`, and a suffix loop over `axis+1 .. dim as isize`. -/
def splice_at (x : IndexNd) (axis : Int) : Option (IndexNd × IndexNd × IndexNd) := do
  let pre ← collect x (intRange 0 axis)
  let sel ← if axis < (x.length : Int) then do
      let v ← index_at x axis
      pure [v]
    else pure ([] : List Nat)
  let suf ← collect x (intRange (axis + 1) (x.length : Int))
  pure (pre, sel, suf)

end IndexNd

namespace Index0d

def to_nd (_ : Index0d) : List Nat := []

def to_packed_stride (_ : Index0d) : Index0d := ()

def is_packed (_ _stride : Index0d) : Bool := true

def index_prepend (_ : Index0d) (major : Nat) : Index1d := major

def index_append (_ : Index0d) (minor : Nat) : Index1d := minor

/-- `Index0d::index_at` is `unreachable!()`: always a panic. -/
def index_at (_ : Index0d) (_ : Int) : Option Nat := none

/-- `Index0d::index_cut` returns `()` for any axis, without failing. -/
def index_cut (_ : Index0d) (_ : Int) : Option Index0d := some ()

def flat_len (_ : Index0d) : Nat := 1

def flat_index (_ _stride : Index0d) : Nat := 0

def inside (_ : Index0d) : Nat := 1

def outside (_ : Index0d) : Nat := 1

def dim (_ : Index0d) : Nat := 0

/-- Trait-default `stride_append_packed`: `self.index_append(self.outside() * outside)`. -/
def stride_append_packed (x : Index0d) (o : Nat) : Index1d := index_append x (outside x * o)

end Index0d

namespace Index1d

def to_nd (x : Index1d) : List Nat := [x]

def to_packed_stride (_ : Index1d) : Index1d := 1

def is_packed (x stride : Index1d) : Bool := decide (to_packed_stride x = stride)

def index_prepend (x : Index1d) (major : Nat) : Index2d := (major, x)

def index_append (x : Index1d) (minor : Nat) : Index2d := (x, minor)

/-- `Index1d::index_at`: `assert_eq!(0, axis); *self`. -/
def index_at (x : Index1d) (axis : Int) : Option Nat :=
  if axis = 0 then some x else none

/-- `Index1d::index_cut`: `assert_eq!(0, axis); ()`. -/
def index_cut (_ : Index1d) (axis : Int) : Option Index0d :=
  if axis = 0 then some () else none

def flat_len (x : Index1d) : Nat := x

def flat_index (x stride : Index1d) : Nat := x * stride

def inside (x : Index1d) : Nat := x

def outside (x : Index1d) : Nat := x

def dim (_ : Index1d) : Nat := 1

def stride_append_packed (x : Index1d) (o : Nat) : Index2d := index_append x (outside x * o)

end Index1d

namespace Index2d

def to_nd (x : Index2d) : List Nat := [x.1, x.2]

def to_packed_stride (x : Index2d) : Index2d :=
  let s0 := 1
  let s1 := s0 * x.1
  (s0, s1)

def is_packed (x stride : Index2d) : Bool := decide (to_packed_stride x = stride)

def index_prepend (x : Index2d) (major : Nat) : Index3d := (major, x.1, x.2)

def index_append (x : Index2d) (minor : Nat) : Index3d := (x.1, x.2, minor)

/-- `Index2d::index_at`: `self[axis as usize]`. -/
def index_at (x : Index2d) (axis : Int) : Option Nat :=
  let u := usizeOfIsize axis
  if u = 0 then some x.1 else if u = 1 then some x.2 else none

/-- `Index2d::index_cut`: match on the `isize` axis, `unreachable!()` otherwise. -/
def index_cut (x : Index2d) (axis : Int) : Option Index1d :=
  if axis = 0 then some x.2
  else if axis = 1 then some x.1
  else none

def flat_len (x : Index2d) : Nat := x.1 * x.2

def flat_index (x stride : Index2d) : Nat := x.1 * stride.1 + x.2 * stride.2

def inside (x : Index2d) : Nat := x.1

def outside (x : Index2d) : Nat := x.2

def dim (_ : Index2d) : Nat := 2

def stride_append_packed (x : Index2d) (o : Nat) : Index3d := index_append x (outside x * o)

end Index2d

namespace Index3d

def to_nd (x : Index3d) : List Nat := [x.1, x.2.1, x.2.2]

def to_packed_stride (x : Index3d) : Index3d :=
  let s0 := 1
  let s1 := s0 * x.1
  let s2 := s1 * x.2.1
  (s0, s1, s2)

def is_packed (x stride : Index3d) : Bool := decide (to_packed_stride x = stride)

def index_prepend (x : Index3d) (major : Nat) : Index4d := (major, x.1, x.2.1, x.2.2)

def index_append (x : Index3d) (minor : Nat) : Index4d := (x.1, x.2.1, x.2.2, minor)

/-- `Index3d::index_at`: `self[axis as usize]`. -/
def index_at (x : Index3d) (axis : Int) : Option Nat :=
  let u := usizeOfIsize axis
  if u = 0 then some x.1 else if u = 1 then some x.2.1
  else if u = 2 then some x.2.2 else none

def index_cut (x : Index3d) (axis : Int) : Option Index2d :=
  if axis = 0 then some (x.2.1, x.2.2)
  else if axis = 1 then some (x.1, x.2.2)
  else if axis = 2 then some (x.1, x.2.1)
  else none

def flat_len (x : Index3d) : Nat := x.1 * x.2.1 * x.2.2

def flat_index (x stride : Index3d) : Nat :=
  x.1 * stride.1 + x.2.1 * stride.2.1 + x.2.2 * stride.2.2

def inside (x : Index3d) : Nat := x.1

def outside (x : Index3d) : Nat := x.2.2

def dim (_ : Index3d) : Nat := 3

def stride_append_packed (x : Index3d) (o : Nat) : Index4d := index_append x (outside x * o)

end Index3d

namespace Index4d

def to_nd (x : Index4d) : List Nat := [x.1, x.2.1, x.2.2.1, x.2.2.2]

def to_packed_stride (x : Index4d) : Index4d :=
  let s0 := 1
  let s1 := s0 * x.1
  let s2 := s1 * x.2.1
  let s3 := s2 * x.2.2.1
  (s0, s1, s2, s3)

def is_packed (x stride : Index4d) : Bool := decide (to_packed_stride x = stride)

def index_prepend (x : Index4d) (major : Nat) : Index5d :=
  (major, x.1, x.2.1, x.2.2.1, x.2.2.2)

def index_append (x : Index4d) (minor : Nat) : Index5d :=
  (x.1, x.2.1, x.2.2.1, x.2.2.2, minor)

/-- `Index4d::index_at`: `self[axis as usize]`. -/
def index_at (x : Index4d) (axis : Int) : Option Nat :=
  let u := usizeOfIsize axis
  if u = 0 then some x.1 else if u = 1 then some x.2.1
  else if u = 2 then some x.2.2.1 else if u = 3 then some x.2.2.2 else none

def index_cut (x : Index4d) (axis : Int) : Option Index3d :=
  if axis = 0 then some (x.2.1, x.2.2.1, x.2.2.2)
  else if axis = 1 then some (x.1, x.2.2.1, x.2.2.2)
  else if axis = 2 then some (x.1, x.2.1, x.2.2.2)
  else if axis = 3 then some (x.1, x.2.1, x.2.2.1)
  else none

def flat_len (x : Index4d) : Nat := x.1 * x.2.1 * x.2.2.1 * x.2.2.2

def flat_index (x stride : Index4d) : Nat :=
  x.1 * stride.1 + x.2.1 * stride.2.1 + x.2.2.1 * stride.2.2.1 + x.2.2.2 * stride.2.2.2

def inside (x : Index4d) : Nat := x.1

def outside (x : Index4d) : Nat := x.2.2.2

def dim (_ : Index4d) : Nat := 4

def stride_append_packed (x : Index4d) (o : Nat) : Index5d := index_append x (outside x * o)

end Index4d

namespace Index5d

def to_nd (x : Index5d) : List Nat := [x.1, x.2.1, x.2.2.1, x.2.2.2.1, x.2.2.2.2]

def to_packed_stride (x : Index5d) : Index5d :=
  let s0 := 1
  let s1 := s0 * x.1
  let s2 := s1 * x.2.1
  let s3 := s2 * x.2.2.1
  let s4 := s3 * x.2.2.2.1
  (s0, s1, s2, s3, s4)

def is_packed (x stride : Index5d) : Bool := decide (to_packed_stride x = stride)

/-- `Index5d::index_at`: `self[axis as usize]`. -/
def index_at (x : Index5d) (axis : Int) : Option Nat :=
  let u := usizeOfIsize axis
  if u = 0 then some x.1 else if u = 1 then some x.2.1
  else if u = 2 then some x.2.2.1 else if u = 3 then some x.2.2.2.1
  else if u = 4 then some x.2.2.2.2 else none

def index_cut (x : Index5d) (axis : Int) : Option Index4d :=
  if axis = 0 then some (x.2.1, x.2.2.1, x.2.2.2.1, x.2.2.2.2)
  else if axis = 1 then some (x.1, x.2.2.1, x.2.2.2.1, x.2.2.2.2)
  else if axis = 2 then some (x.1, x.2.1, x.2.2.2.1, x.2.2.2.2)
  else if axis = 3 then some (x.1, x.2.1, x.2.2.1, x.2.2.2.2)
  else if axis = 4 then some (x.1, x.2.1, x.2.2.1, x.2.2.2.1)
  else none

def flat_len (x : Index5d) : Nat := x.1 * x.2.1 * x.2.2.1 * x.2.2.2.1 * x.2.2.2.2

def flat_index (x stride : Index5d) : Nat :=
  x.1 * stride.1 + x.2.1 * stride.2.1 + x.2.2.1 * stride.2.2.1 +
  x.2.2.2.1 * stride.2.2.2.1 + x.2.2.2.2 * stride.2.2.2.2

def inside (x : Index5d) : Nat := x.1

def outside (x : Index5d) : Nat := x.2.2.2.2

def dim (_ : Index5d) : Nat := 5

end Index5d

/-- One end of a Rust `RangeBounds<usize>` argument. -/
inductive RBound where
  | included : Nat → RBound
  | excluded : Nat → RBound
  | unbounded : RBound

/-- The `start_bound` match of `range2idxs_1d`. -/
def resolveStart : RBound → Nat
  | .included x => x
  | .excluded x => x + 1
  | .unbounded => 0

/-- The `end_bound` match of `range2idxs_1d`. -/
def resolveEnd : RBound → Nat → Nat
  | .included x, _ => x + 1
  | .excluded x, _ => x
  | .unbounded, size => size

/-- `range2idxs_1d`, with the two `assert!`s modelled as `none`. -/
def range2idxs_1d (sb eb : RBound) (size : Nat) : Option (Nat × Nat) :=
  let start_idx := resolveStart sb
  let end_idx := resolveEnd eb size
  if start_idx ≤ end_idx then
    if end_idx ≤ size then some (start_idx, end_idx) else none
  else none

/-! ### Mixed-radix arithmetic helpers -/

/-- Little-endian mixed-radix value of a coordinate `c` in radices `s`.
Every rank's `flat_index` against the packed stride of `s` computes this. -/
def flatRec : List Nat → List Nat → Nat
  | c0 :: c, s0 :: s => c0 + s0 * flatRec c s
  | _, _ => 0

/-- Little-endian mixed-radix digits of `i` in radices `s`. -/
def decodeFlat : List Nat → Nat → List Nat
  | [], _ => []
  | s0 :: s, i => i % s0 :: decodeFlat s (i / s0)

theorem foldl_mul_eq (s : List Nat) : ∀ a : Nat, s.foldl (· * ·) a = a * s.foldl (· * ·) 1 := by
  induction s with
  | nil => intro a; simp
  | cons s0 s ih =>
    intro a
    simp only [List.foldl_cons]
    rw [ih (a * s0), ih (1 * s0)]
    ring

theorem flat_len_nil : IndexNd.flat_len [] = 1 := rfl

theorem flat_len_cons (s0 : Nat) (s : List Nat) :
    IndexNd.flat_len (s0 :: s) = s0 * IndexNd.flat_len s := by
  simp only [IndexNd.flat_len, List.foldl_cons]
  rw [foldl_mul_eq s (1 * s0), one_mul]

theorem flatRec_lt {c s : List Nat} (h : List.Forall₂ (· < ·) c s) :
    flatRec c s < IndexNd.flat_len s := by
  induction h with
  | nil => simp [flatRec, flat_len_nil]
  | cons hab hrest ih =>
    rename_i c0 s0 c s
    rw [flat_len_cons]
    simp only [flatRec]
    calc c0 + s0 * flatRec c s < s0 * (flatRec c s + 1) := by
          rw [Nat.mul_succ]; omega
      _ ≤ s0 * IndexNd.flat_len s := Nat.mul_le_mul (le_refl s0) (Nat.succ_le_of_lt ih)

theorem flatRec_inj {c d s : List Nat} (hc : List.Forall₂ (· < ·) c s)
    (hd : List.Forall₂ (· < ·) d s)
    (h : flatRec c s = flatRec d s) : c = d := by
  induction hc generalizing d with
  | nil =>
    cases hd
    rfl
  | cons hab hrest ih =>
    rename_i c0 s0 c s
    cases hd with
    | cons hd0 hdrest =>
      rename_i d0 d
      simp only [flatRec] at h
      have hs0 : 0 < s0 := Nat.lt_of_le_of_lt (Nat.zero_le c0) hab
      have h0 : c0 = d0 := by
        have h1 : (c0 + s0 * flatRec c s) % s0 = (d0 + s0 * flatRec d s) % s0 := by rw [h]
        rwa [Nat.add_mul_mod_self_left, Nat.add_mul_mod_self_left,
             Nat.mod_eq_of_lt hab, Nat.mod_eq_of_lt hd0] at h1
      subst h0
      have h2 : flatRec c s = flatRec d s :=
        Nat.eq_of_mul_eq_mul_left hs0 (Nat.add_left_cancel h)
      rw [ih hdrest h2]

theorem decodeFlat_forall₂ : ∀ (s : List Nat) (i : Nat), i < IndexNd.flat_len s →
    List.Forall₂ (· < ·) (decodeFlat s i) s := by
  intro s
  induction s with
  | nil => intro i _; exact List.Forall₂.nil
  | cons s0 s ih =>
    intro i hi
    rw [flat_len_cons] at hi
    have hs0 : 0 < s0 := by
      rcases Nat.eq_zero_or_pos s0 with h | h
      · subst h; simp at hi
      · exact h
    refine List.Forall₂.cons (Nat.mod_lt i hs0) (ih _ ?_)
    rw [Nat.div_lt_iff_lt_mul hs0]
    calc i < s0 * IndexNd.flat_len s := hi
      _ = IndexNd.flat_len s * s0 := Nat.mul_comm _ _

theorem decodeFlat_flatRec : ∀ (s : List Nat) (i : Nat), i < IndexNd.flat_len s →
    flatRec (decodeFlat s i) s = i := by
  intro s
  induction s with
  | nil =>
    intro i hi
    rw [flat_len_nil] at hi
    simp only [decodeFlat, flatRec]
    omega
  | cons s0 s ih =>
    intro i hi
    rw [flat_len_cons] at hi
    have hs0 : 0 < s0 := by
      rcases Nat.eq_zero_or_pos s0 with h | h
      · subst h; simp at hi
      · exact h
    simp only [decodeFlat, flatRec]
    rw [ih (i / s0) (by
      rw [Nat.div_lt_iff_lt_mul hs0]
      calc i < s0 * IndexNd.flat_len s := hi
        _ = IndexNd.flat_len s * s0 := Nat.mul_comm _ _)]
    exact Nat.mod_add_div i s0

/-! ### Packed-stride recurrence helpers -/

theorem packed_aux_length : ∀ (s : List Nat) (a : Nat),
    (IndexNd.packed_aux a s).length = s.length := by
  intro s
  induction s with
  | nil => intro a; rfl
  | cons s0 s ih => intro a; simp [IndexNd.packed_aux, ih]

theorem packed_aux_getD_zero (s : List Nat) (a : Nat) (h : s ≠ []) :
    (IndexNd.packed_aux a s).getD 0 0 = a := by
  cases s with
  | nil => exact absurd rfl h
  | cons s0 rest => rfl

theorem packed_aux_getD_succ : ∀ (d : Nat) (s : List Nat) (a : Nat), d + 1 < s.length →
    (IndexNd.packed_aux a s).getD (d + 1) 0 =
      (IndexNd.packed_aux a s).getD d 0 * s.getD d 0 := by
  intro d
  induction d with
  | zero =>
    intro s a h
    cases s with
    | nil => simp at h
    | cons s0 rest =>
      cases rest with
      | nil => simp at h
      | cons s1 rest2 => rfl
  | succ d ih =>
    intro s a h
    cases s with
    | nil => simp at h
    | cons s0 rest =>
      have hrec := ih rest (a * s0) (by simpa using h)
      simpa [IndexNd.packed_aux] using hrec

/-- The packed-stride recurrence stated in the spec's own words: the stride
has the same length as the shape, component 0 is `1`, and component `d`
(for `d > 0`) is `stride[d-1] * shape[d-1]`. -/
def packedSpec (s t : List Nat) : Prop :=
  t.length = s.length ∧ (0 < t.length → t.getD 0 0 = 1) ∧
    ∀ d, 0 < d → d < t.length → t.getD d 0 = t.getD (d - 1) 0 * s.getD (d - 1) 0

theorem packedSpec_nd (s : IndexNd) : packedSpec s (IndexNd.to_packed_stride s) := by
  unfold packedSpec IndexNd.to_packed_stride
  refine ⟨packed_aux_length s 1, ?_, ?_⟩
  · intro h
    apply packed_aux_getD_zero
    intro hnil
    subst hnil
    simp [IndexNd.packed_aux] at h
  · intro d hd hlen
    obtain ⟨e, rfl⟩ : ∃ e, d = e + 1 := ⟨d - 1, by omega⟩
    rw [packed_aux_length] at hlen
    simpa using packed_aux_getD_succ e s 1 hlen

/-! ### Per-rank coordinate bounds and bridges to the mixed-radix core -/

/-- Componentwise `<` of a rank-2 coordinate below a rank-2 shape. -/
def coordLt2 (C S : Index2d) : Prop := C.1 < S.1 ∧ C.2 < S.2

/-- Componentwise `<` of a rank-3 coordinate below a rank-3 shape. -/
def coordLt3 (C S : Index3d) : Prop := C.1 < S.1 ∧ C.2.1 < S.2.1 ∧ C.2.2 < S.2.2

/-- Componentwise `<` of a rank-4 coordinate below a rank-4 shape. -/
def coordLt4 (C S : Index4d) : Prop :=
  C.1 < S.1 ∧ C.2.1 < S.2.1 ∧ C.2.2.1 < S.2.2.1 ∧ C.2.2.2 < S.2.2.2

/-- Componentwise `<` of a rank-5 coordinate below a rank-5 shape. -/
def coordLt5 (C S : Index5d) : Prop :=
  C.1 < S.1 ∧ C.2.1 < S.2.1 ∧ C.2.2.1 < S.2.2.1 ∧ C.2.2.2.1 < S.2.2.2.1 ∧
    C.2.2.2.2 < S.2.2.2.2

theorem forall2_coord2 {C S : Index2d} (h : coordLt2 C S) :
    List.Forall₂ (· < ·) [C.1, C.2] [S.1, S.2] :=
  List.Forall₂.cons h.1 (List.Forall₂.cons h.2 List.Forall₂.nil)

theorem forall2_coord3 {C S : Index3d} (h : coordLt3 C S) :
    List.Forall₂ (· < ·) [C.1, C.2.1, C.2.2] [S.1, S.2.1, S.2.2] :=
  List.Forall₂.cons h.1 (List.Forall₂.cons h.2.1 (List.Forall₂.cons h.2.2 List.Forall₂.nil))

theorem forall2_coord4 {C S : Index4d} (h : coordLt4 C S) :
    List.Forall₂ (· < ·) [C.1, C.2.1, C.2.2.1, C.2.2.2] [S.1, S.2.1, S.2.2.1, S.2.2.2] :=
  List.Forall₂.cons h.1 (List.Forall₂.cons h.2.1 (List.Forall₂.cons h.2.2.1
    (List.Forall₂.cons h.2.2.2 List.Forall₂.nil)))

theorem forall2_coord5 {C S : Index5d} (h : coordLt5 C S) :
    List.Forall₂ (· < ·) [C.1, C.2.1, C.2.2.1, C.2.2.2.1, C.2.2.2.2]
      [S.1, S.2.1, S.2.2.1, S.2.2.2.1, S.2.2.2.2] :=
  List.Forall₂.cons h.1 (List.Forall₂.cons h.2.1 (List.Forall₂.cons h.2.2.1
    (List.Forall₂.cons h.2.2.2.1 (List.Forall₂.cons h.2.2.2.2 List.Forall₂.nil))))

theorem bridge_flat2 (C S : Index2d) :
    Index2d.flat_index C (Index2d.to_packed_stride S) = flatRec [C.1, C.2] [S.1, S.2] := by
  simp only [Index2d.flat_index, Index2d.to_packed_stride, flatRec]
  ring

theorem bridge_len2 (S : Index2d) : Index2d.flat_len S = IndexNd.flat_len [S.1, S.2] := by
  simp only [Index2d.flat_len, IndexNd.flat_len, List.foldl_cons, List.foldl_nil]
  ring

theorem bridge_flat3 (C S : Index3d) :
    Index3d.flat_index C (Index3d.to_packed_stride S) =
      flatRec [C.1, C.2.1, C.2.2] [S.1, S.2.1, S.2.2] := by
  simp only [Index3d.flat_index, Index3d.to_packed_stride, flatRec]
  ring

theorem bridge_len3 (S : Index3d) :
    Index3d.flat_len S = IndexNd.flat_len [S.1, S.2.1, S.2.2] := by
  simp only [Index3d.flat_len, IndexNd.flat_len, List.foldl_cons, List.foldl_nil]
  ring

theorem bridge_flat4 (C S : Index4d) :
    Index4d.flat_index C (Index4d.to_packed_stride S) =
      flatRec [C.1, C.2.1, C.2.2.1, C.2.2.2] [S.1, S.2.1, S.2.2.1, S.2.2.2] := by
  simp only [Index4d.flat_index, Index4d.to_packed_stride, flatRec]
  ring

theorem bridge_len4 (S : Index4d) :
    Index4d.flat_len S = IndexNd.flat_len [S.1, S.2.1, S.2.2.1, S.2.2.2] := by
  simp only [Index4d.flat_len, IndexNd.flat_len, List.foldl_cons, List.foldl_nil]
  ring

theorem bridge_flat5 (C S : Index5d) :
    Index5d.flat_index C (Index5d.to_packed_stride S) =
      flatRec [C.1, C.2.1, C.2.2.1, C.2.2.2.1, C.2.2.2.2]
        [S.1, S.2.1, S.2.2.1, S.2.2.2.1, S.2.2.2.2] := by
  simp only [Index5d.flat_index, Index5d.to_packed_stride, flatRec]
  ring

theorem bridge_len5 (S : Index5d) :
    Index5d.flat_len S = IndexNd.flat_len [S.1, S.2.1, S.2.2.1, S.2.2.2.1, S.2.2.2.2] := by
  simp only [Index5d.flat_len, IndexNd.flat_len, List.foldl_cons, List.foldl_nil]
  ring

/-! ### Per-rank bound, injectivity, surjectivity lemmas -/

theorem flat2_lt (S C : Index2d) (h : coordLt2 C S) :
    Index2d.flat_index C (Index2d.to_packed_stride S) < Index2d.flat_len S := by
  rw [bridge_flat2, bridge_len2]
  exact flatRec_lt (forall2_coord2 h)

theorem flat2_inj (S C D : Index2d) (hc : coordLt2 C S) (hd : coordLt2 D S)
    (h : Index2d.flat_index C (Index2d.to_packed_stride S) =
      Index2d.flat_index D (Index2d.to_packed_stride S)) : C = D := by
  rw [bridge_flat2 C S, bridge_flat2 D S] at h
  have he := flatRec_inj (forall2_coord2 hc) (forall2_coord2 hd) h
  simp only [List.cons.injEq, and_true] at he
  exact Prod.ext he.1 he.2

theorem flat2_surj (S : Index2d) (i : Nat) (hi : i < Index2d.flat_len S) :
    ∃ C, coordLt2 C S ∧ Index2d.flat_index C (Index2d.to_packed_stride S) = i := by
  rw [bridge_len2] at hi
  refine ⟨(i % S.1, i / S.1 % S.2), ?_, ?_⟩
  · have h := decodeFlat_forall₂ [S.1, S.2] i hi
    rw [show decodeFlat [S.1, S.2] i = [i % S.1, i / S.1 % S.2] from rfl] at h
    cases h with
    | cons h0 h' =>
      cases h' with
      | cons h1 _ => exact ⟨h0, h1⟩
  · rw [bridge_flat2]
    have h := decodeFlat_flatRec [S.1, S.2] i hi
    rw [show decodeFlat [S.1, S.2] i = [i % S.1, i / S.1 % S.2] from rfl] at h
    exact h

theorem flat3_lt (S C : Index3d) (h : coordLt3 C S) :
    Index3d.flat_index C (Index3d.to_packed_stride S) < Index3d.flat_len S := by
  rw [bridge_flat3, bridge_len3]
  exact flatRec_lt (forall2_coord3 h)

theorem flat3_inj (S C D : Index3d) (hc : coordLt3 C S) (hd : coordLt3 D S)
    (h : Index3d.flat_index C (Index3d.to_packed_stride S) =
      Index3d.flat_index D (Index3d.to_packed_stride S)) : C = D := by
  rw [bridge_flat3 C S, bridge_flat3 D S] at h
  have he := flatRec_inj (forall2_coord3 hc) (forall2_coord3 hd) h
  simp only [List.cons.injEq, and_true] at he
  exact Prod.ext he.1 (Prod.ext he.2.1 he.2.2)

theorem flat3_surj (S : Index3d) (i : Nat) (hi : i < Index3d.flat_len S) :
    ∃ C, coordLt3 C S ∧ Index3d.flat_index C (Index3d.to_packed_stride S) = i := by
  rw [bridge_len3] at hi
  refine ⟨(i % S.1, i / S.1 % S.2.1, i / S.1 / S.2.1 % S.2.2), ?_, ?_⟩
  · have h := decodeFlat_forall₂ [S.1, S.2.1, S.2.2] i hi
    rw [show decodeFlat [S.1, S.2.1, S.2.2] i =
      [i % S.1, i / S.1 % S.2.1, i / S.1 / S.2.1 % S.2.2] from rfl] at h
    cases h with
    | cons h0 h' =>
      cases h' with
      | cons h1 h'' =>
        cases h'' with
        | cons h2 _ => exact ⟨h0, h1, h2⟩
  · rw [bridge_flat3]
    have h := decodeFlat_flatRec [S.1, S.2.1, S.2.2] i hi
    rw [show decodeFlat [S.1, S.2.1, S.2.2] i =
      [i % S.1, i / S.1 % S.2.1, i / S.1 / S.2.1 % S.2.2] from rfl] at h
    exact h

theorem flat4_lt (S C : Index4d) (h : coordLt4 C S) :
    Index4d.flat_index C (Index4d.to_packed_stride S) < Index4d.flat_len S := by
  rw [bridge_flat4, bridge_len4]
  exact flatRec_lt (forall2_coord4 h)

theorem flat4_inj (S C D : Index4d) (hc : coordLt4 C S) (hd : coordLt4 D S)
    (h : Index4d.flat_index C (Index4d.to_packed_stride S) =
      Index4d.flat_index D (Index4d.to_packed_stride S)) : C = D := by
  rw [bridge_flat4 C S, bridge_flat4 D S] at h
  have he := flatRec_inj (forall2_coord4 hc) (forall2_coord4 hd) h
  simp only [List.cons.injEq, and_true] at he
  exact Prod.ext he.1 (Prod.ext he.2.1 (Prod.ext he.2.2.1 he.2.2.2))

theorem flat4_surj (S : Index4d) (i : Nat) (hi : i < Index4d.flat_len S) :
    ∃ C, coordLt4 C S ∧ Index4d.flat_index C (Index4d.to_packed_stride S) = i := by
  rw [bridge_len4] at hi
  refine ⟨(i % S.1, i / S.1 % S.2.1, i / S.1 / S.2.1 % S.2.2.1,
    i / S.1 / S.2.1 / S.2.2.1 % S.2.2.2), ?_, ?_⟩
  · have h := decodeFlat_forall₂ [S.1, S.2.1, S.2.2.1, S.2.2.2] i hi
    rw [show decodeFlat [S.1, S.2.1, S.2.2.1, S.2.2.2] i =
      [i % S.1, i / S.1 % S.2.1, i / S.1 / S.2.1 % S.2.2.1,
        i / S.1 / S.2.1 / S.2.2.1 % S.2.2.2] from rfl] at h
    cases h with
    | cons h0 h' =>
      cases h' with
      | cons h1 h'' =>
        cases h'' with
        | cons h2 h''' =>
          cases h''' with
          | cons h3 _ => exact ⟨h0, h1, h2, h3⟩
  · rw [bridge_flat4]
    have h := decodeFlat_flatRec [S.1, S.2.1, S.2.2.1, S.2.2.2] i hi
    rw [show decodeFlat [S.1, S.2.1, S.2.2.1, S.2.2.2] i =
      [i % S.1, i / S.1 % S.2.1, i / S.1 / S.2.1 % S.2.2.1,
        i / S.1 / S.2.1 / S.2.2.1 % S.2.2.2] from rfl] at h
    exact h

theorem flat5_lt (S C : Index5d) (h : coordLt5 C S) :
    Index5d.flat_index C (Index5d.to_packed_stride S) < Index5d.flat_len S := by
  rw [bridge_flat5, bridge_len5]
  exact flatRec_lt (forall2_coord5 h)

theorem flat5_inj (S C D : Index5d) (hc : coordLt5 C S) (hd : coordLt5 D S)
    (h : Index5d.flat_index C (Index5d.to_packed_stride S) =
      Index5d.flat_index D (Index5d.to_packed_stride S)) : C = D := by
  rw [bridge_flat5 C S, bridge_flat5 D S] at h
  have he := flatRec_inj (forall2_coord5 hc) (forall2_coord5 hd) h
  simp only [List.cons.injEq, and_true] at he
  exact Prod.ext he.1 (Prod.ext he.2.1 (Prod.ext he.2.2.1 (Prod.ext he.2.2.2.1 he.2.2.2.2)))

theorem flat5_surj (S : Index5d) (i : Nat) (hi : i < Index5d.flat_len S) :
    ∃ C, coordLt5 C S ∧ Index5d.flat_index C (Index5d.to_packed_stride S) = i := by
  rw [bridge_len5] at hi
  refine ⟨(i % S.1, i / S.1 % S.2.1, i / S.1 / S.2.1 % S.2.2.1,
    i / S.1 / S.2.1 / S.2.2.1 % S.2.2.2.1,
    i / S.1 / S.2.1 / S.2.2.1 / S.2.2.2.1 % S.2.2.2.2), ?_, ?_⟩
  · have h := decodeFlat_forall₂ [S.1, S.2.1, S.2.2.1, S.2.2.2.1, S.2.2.2.2] i hi
    rw [show decodeFlat [S.1, S.2.1, S.2.2.1, S.2.2.2.1, S.2.2.2.2] i =
      [i % S.1, i / S.1 % S.2.1, i / S.1 / S.2.1 % S.2.2.1,
        i / S.1 / S.2.1 / S.2.2.1 % S.2.2.2.1,
        i / S.1 / S.2.1 / S.2.2.1 / S.2.2.2.1 % S.2.2.2.2] from rfl] at h
    cases h with
    | cons h0 h' =>
      cases h' with
      | cons h1 h'' =>
        cases h'' with
        | cons h2 h''' =>
          cases h''' with
          | cons h3 h'''' =>
            cases h'''' with
            | cons h4 _ => exact ⟨h0, h1, h2, h3, h4⟩
  · rw [bridge_flat5]
    have h := decodeFlat_flatRec [S.1, S.2.1, S.2.2.1, S.2.2.2.1, S.2.2.2.2] i hi
    rw [show decodeFlat [S.1, S.2.1, S.2.2.1, S.2.2.2.1, S.2.2.2.2] i =
      [i % S.1, i / S.1 % S.2.1, i / S.1 / S.2.1 % S.2.2.1,
        i / S.1 / S.2.1 / S.2.2.1 % S.2.2.2.1,
        i / S.1 / S.2.1 / S.2.2.1 / S.2.2.2.1 % S.2.2.2.2] from rfl] at h
    exact h

/-! ### Claims -/

/-- Claim C1: for every rank k in {0..5} and every shape S of rank k, the
packed stride T = to_packed_stride(S) satisfies: for every coordinate C with
0 <= C[d] < S[d] for all axes d, flat_index(C, T) lies in [0, flat_len(S)),
and the map from such coordinates to flat indices is a bijection onto
[0, flat_len(S)) (injective, and every value below flat_len(S) is hit). -/
theorem claim_C1_flat_index_bijection :
    ((Index0d.flat_index () (Index0d.to_packed_stride ()) < Index0d.flat_len ())
      ∧ (∀ C D : Index0d,
          Index0d.flat_index C (Index0d.to_packed_stride ()) =
            Index0d.flat_index D (Index0d.to_packed_stride ()) → C = D)
      ∧ (∀ i, i < Index0d.flat_len () →
          ∃ C : Index0d, Index0d.flat_index C (Index0d.to_packed_stride ()) = i))
    ∧ ((∀ S C : Index1d, C < S →
          Index1d.flat_index C (Index1d.to_packed_stride S) < Index1d.flat_len S)
      ∧ (∀ S C D : Index1d, C < S → D < S →
          Index1d.flat_index C (Index1d.to_packed_stride S) =
            Index1d.flat_index D (Index1d.to_packed_stride S) → C = D)
      ∧ (∀ S i : Nat, i < Index1d.flat_len S →
          ∃ C, C < S ∧ Index1d.flat_index C (Index1d.to_packed_stride S) = i))
    ∧ ((∀ S C : Index2d, coordLt2 C S →
          Index2d.flat_index C (Index2d.to_packed_stride S) < Index2d.flat_len S)
      ∧ (∀ S C D : Index2d, coordLt2 C S → coordLt2 D S →
          Index2d.flat_index C (Index2d.to_packed_stride S) =
            Index2d.flat_index D (Index2d.to_packed_stride S) → C = D)
      ∧ (∀ (S : Index2d) (i : Nat), i < Index2d.flat_len S →
          ∃ C, coordLt2 C S ∧ Index2d.flat_index C (Index2d.to_packed_stride S) = i))
    ∧ ((∀ S C : Index3d, coordLt3 C S →
          Index3d.flat_index C (Index3d.to_packed_stride S) < Index3d.flat_len S)
      ∧ (∀ S C D : Index3d, coordLt3 C S → coordLt3 D S →
          Index3d.flat_index C (Index3d.to_packed_stride S) =
            Index3d.flat_index D (Index3d.to_packed_stride S) → C = D)
      ∧ (∀ (S : Index3d) (i : Nat), i < Index3d.flat_len S →
          ∃ C, coordLt3 C S ∧ Index3d.flat_index C (Index3d.to_packed_stride S) = i))
    ∧ ((∀ S C : Index4d, coordLt4 C S →
          Index4d.flat_index C (Index4d.to_packed_stride S) < Index4d.flat_len S)
      ∧ (∀ S C D : Index4d, coordLt4 C S → coordLt4 D S →
          Index4d.flat_index C (Index4d.to_packed_stride S) =
            Index4d.flat_index D (Index4d.to_packed_stride S) → C = D)
      ∧ (∀ (S : Index4d) (i : Nat), i < Index4d.flat_len S →
          ∃ C, coordLt4 C S ∧ Index4d.flat_index C (Index4d.to_packed_stride S) = i))
    ∧ ((∀ S C : Index5d, coordLt5 C S →
          Index5d.flat_index C (Index5d.to_packed_stride S) < Index5d.flat_len S)
      ∧ (∀ S C D : Index5d, coordLt5 C S → coordLt5 D S →
          Index5d.flat_index C (Index5d.to_packed_stride S) =
            Index5d.flat_index D (Index5d.to_packed_stride S) → C = D)
      ∧ (∀ (S : Index5d) (i : Nat), i < Index5d.flat_len S →
          ∃ C, coordLt5 C S ∧ Index5d.flat_index C (Index5d.to_packed_stride S) = i)) := by
  refine ⟨⟨?_, ?_, ?_⟩, ⟨?_, ?_, ?_⟩, ⟨flat2_lt, flat2_inj, flat2_surj⟩,
    ⟨flat3_lt, flat3_inj, flat3_surj⟩, ⟨flat4_lt, flat4_inj, flat4_surj⟩,
    ⟨flat5_lt, flat5_inj, flat5_surj⟩⟩
  · decide
  · intro C D _
    rfl
  · intro i hi
    refine ⟨(), ?_⟩
    simp only [Index0d.flat_len] at hi
    simp only [Index0d.flat_index]
    omega
  · intro S C h
    simpa [Index1d.flat_index, Index1d.to_packed_stride, Index1d.flat_len] using h
  · intro S C D _ _ h
    simpa [Index1d.flat_index, Index1d.to_packed_stride] using h
  · intro S i hi
    exact ⟨i, hi, by simp [Index1d.flat_index, Index1d.to_packed_stride]⟩

/-- Claim C1 witness: a concrete instance of the rank-3 in-bounds property. -/
theorem claim_C1_witness :
    Index3d.flat_index (1, 2, 3) (Index3d.to_packed_stride (2, 3, 4)) <
      Index3d.flat_len (2, 3, 4) :=
  claim_C1_flat_index_bijection.2.2.2.1.1 (2, 3, 4) (1, 2, 3)
    ⟨by decide, by decide, by decide⟩

theorem packedSpec_rk0 (S : Index0d) :
    packedSpec (Index0d.to_nd S) (Index0d.to_nd (Index0d.to_packed_stride S)) := by
  refine ⟨rfl, ?_, ?_⟩
  · intro h
    simp [Index0d.to_nd] at h
  · intro d hd hlen
    simp [Index0d.to_nd] at hlen

theorem packedSpec_rk1 (S : Index1d) :
    packedSpec (Index1d.to_nd S) (Index1d.to_nd (Index1d.to_packed_stride S)) := by
  refine ⟨rfl, fun _ => rfl, ?_⟩
  intro d hd hlen
  simp [Index1d.to_nd] at hlen
  omega

theorem packedSpec_rk2 (S : Index2d) :
    packedSpec (Index2d.to_nd S) (Index2d.to_nd (Index2d.to_packed_stride S)) := by
  obtain ⟨s0, s1⟩ := S
  refine ⟨rfl, fun _ => rfl, ?_⟩
  intro d hd hlen
  simp only [Index2d.to_nd, Index2d.to_packed_stride, List.length_cons,
    List.length_nil] at hlen
  interval_cases d
  · rfl

theorem packedSpec_rk3 (S : Index3d) :
    packedSpec (Index3d.to_nd S) (Index3d.to_nd (Index3d.to_packed_stride S)) := by
  obtain ⟨s0, s1, s2⟩ := S
  refine ⟨rfl, fun _ => rfl, ?_⟩
  intro d hd hlen
  simp only [Index3d.to_nd, Index3d.to_packed_stride, List.length_cons,
    List.length_nil] at hlen
  interval_cases d
  · rfl
  · rfl

theorem packedSpec_rk4 (S : Index4d) :
    packedSpec (Index4d.to_nd S) (Index4d.to_nd (Index4d.to_packed_stride S)) := by
  obtain ⟨s0, s1, s2, s3⟩ := S
  refine ⟨rfl, fun _ => rfl, ?_⟩
  intro d hd hlen
  simp only [Index4d.to_nd, Index4d.to_packed_stride, List.length_cons,
    List.length_nil] at hlen
  interval_cases d
  · rfl
  · rfl
  · rfl

theorem packedSpec_rk5 (S : Index5d) :
    packedSpec (Index5d.to_nd S) (Index5d.to_nd (Index5d.to_packed_stride S)) := by
  obtain ⟨s0, s1, s2, s3, s4⟩ := S
  refine ⟨rfl, fun _ => rfl, ?_⟩
  intro d hd hlen
  simp only [Index5d.to_nd, Index5d.to_packed_stride, List.length_cons,
    List.length_nil] at hlen
  interval_cases d
  · rfl
  · rfl
  · rfl
  · rfl

/-- Claim C2: for every shape, of each fixed rank 0 through 5 and of IndexNd
with any dim, to_packed_stride has component 0 equal to 1 and, for every
d > 0, component d equal to stride[d-1] * S[d-1]; all six fixed-rank
implementations and the variable-rank implementation satisfy this single
recurrence (`packedSpec`). -/
theorem claim_C2_packed_stride_recurrence :
    (∀ s : IndexNd, packedSpec s (IndexNd.to_packed_stride s))
    ∧ (∀ S : Index0d, packedSpec (Index0d.to_nd S) (Index0d.to_nd (Index0d.to_packed_stride S)))
    ∧ (∀ S : Index1d, packedSpec (Index1d.to_nd S) (Index1d.to_nd (Index1d.to_packed_stride S)))
    ∧ (∀ S : Index2d, packedSpec (Index2d.to_nd S) (Index2d.to_nd (Index2d.to_packed_stride S)))
    ∧ (∀ S : Index3d, packedSpec (Index3d.to_nd S) (Index3d.to_nd (Index3d.to_packed_stride S)))
    ∧ (∀ S : Index4d, packedSpec (Index4d.to_nd S) (Index4d.to_nd (Index4d.to_packed_stride S)))
    ∧ (∀ S : Index5d, packedSpec (Index5d.to_nd S) (Index5d.to_nd (Index5d.to_packed_stride S))) :=
  ⟨packedSpec_nd, packedSpec_rk0, packedSpec_rk1, packedSpec_rk2, packedSpec_rk3,
    packedSpec_rk4, packedSpec_rk5⟩

/-- Claim C2 witness: the recurrence at component 2 of the packed stride of
the IndexNd shape [2, 3, 4]. -/
theorem claim_C2_witness :
    (IndexNd.to_packed_stride [2, 3, 4]).getD 2 0 =
      (IndexNd.to_packed_stride [2, 3, 4]).getD 1 0 * ([2, 3, 4] : IndexNd).getD 1 0 :=
  (claim_C2_packed_stride_recurrence.1 [2, 3, 4]).2.2 2 (by decide) (by decide)

/-- Claim C3 counterexample: for the rank-1 packed stride T = (1) of the
shape S = 3 and extra extent 2, stride_append_packed(T, 2) = (1, 2), which is
neither to_packed_stride of the appended shape (3, 2) — that is (1, 3) — nor
T with outside(S) * 2 = 6 appended. -/
theorem claim_C3_counterexample :
    Index1d.stride_append_packed (Index1d.to_packed_stride 3) 2 ≠
      Index2d.to_packed_stride (Index1d.index_append 3 2)
    ∧ Index1d.stride_append_packed (Index1d.to_packed_stride 3) 2 ≠
      Index1d.index_append (Index1d.to_packed_stride 3) (Index1d.outside 3 * 2) := by
  decide

/-- Claim C3 amended: stride_append_packed(T, x) appends outside(T) * x (the
stride's own outermost component times x, not outside(S) * x), and applied to
a packed stride T = to_packed_stride(S) with x = outside(S) it yields the
packed stride of the rank-(k+1) shape formed by appending an extent to S —
for every appended extent e, since the packed stride of the extended shape
does not depend on e. -/
theorem claim_C3_amended :
    ((∀ (T : Index0d) (x : Nat),
        Index0d.stride_append_packed T x = Index0d.index_append T (Index0d.outside T * x))
      ∧ ∀ (S : Index0d) (e : Nat),
        Index0d.stride_append_packed (Index0d.to_packed_stride S) (Index0d.outside S) =
          Index1d.to_packed_stride (Index0d.index_append S e))
    ∧ ((∀ (T : Index1d) (x : Nat),
        Index1d.stride_append_packed T x = Index1d.index_append T (Index1d.outside T * x))
      ∧ ∀ (S : Index1d) (e : Nat),
        Index1d.stride_append_packed (Index1d.to_packed_stride S) (Index1d.outside S) =
          Index2d.to_packed_stride (Index1d.index_append S e))
    ∧ ((∀ (T : Index2d) (x : Nat),
        Index2d.stride_append_packed T x = Index2d.index_append T (Index2d.outside T * x))
      ∧ ∀ (S : Index2d) (e : Nat),
        Index2d.stride_append_packed (Index2d.to_packed_stride S) (Index2d.outside S) =
          Index3d.to_packed_stride (Index2d.index_append S e))
    ∧ ((∀ (T : Index3d) (x : Nat),
        Index3d.stride_append_packed T x = Index3d.index_append T (Index3d.outside T * x))
      ∧ ∀ (S : Index3d) (e : Nat),
        Index3d.stride_append_packed (Index3d.to_packed_stride S) (Index3d.outside S) =
          Index4d.to_packed_stride (Index3d.index_append S e))
    ∧ ((∀ (T : Index4d) (x : Nat),
        Index4d.stride_append_packed T x = Index4d.index_append T (Index4d.outside T * x))
      ∧ ∀ (S : Index4d) (e : Nat),
        Index4d.stride_append_packed (Index4d.to_packed_stride S) (Index4d.outside S) =
          Index5d.to_packed_stride (Index4d.index_append S e)) :=
  ⟨⟨fun _ _ => rfl, fun _ _ => rfl⟩, ⟨fun _ _ => rfl, fun _ _ => rfl⟩,
    ⟨fun _ _ => rfl, fun _ _ => rfl⟩, ⟨fun _ _ => rfl, fun _ _ => rfl⟩,
    ⟨fun _ _ => rfl, fun _ _ => rfl⟩⟩

/-- Claim C4: range2idxs_1d resolves an included start x to x, an excluded
start x to x + 1, an unbounded start to 0, an included end x to x + 1, an
excluded end x to x, an unbounded end to the dimension size; it returns
(start, end) when start <= end <= size and fails exactly when start > end or
end > size; with the spec's concrete examples over size 10. -/
theorem claim_C4_range_normalization :
    (∀ x, resolveStart (.included x) = x)
    ∧ (∀ x, resolveStart (.excluded x) = x + 1)
    ∧ resolveStart .unbounded = 0
    ∧ (∀ x size, resolveEnd (.included x) size = x + 1)
    ∧ (∀ x size, resolveEnd (.excluded x) size = x)
    ∧ (∀ size, resolveEnd .unbounded size = size)
    ∧ (∀ sb eb size,
        (resolveStart sb ≤ resolveEnd eb size → resolveEnd eb size ≤ size →
          range2idxs_1d sb eb size = some (resolveStart sb, resolveEnd eb size))
      ∧ (resolveEnd eb size < resolveStart sb ∨ size < resolveEnd eb size →
          range2idxs_1d sb eb size = none))
    ∧ range2idxs_1d .unbounded .unbounded 10 = some (0, 10)
    ∧ range2idxs_1d (.included 2) (.included 5) 10 = some (2, 6)
    ∧ range2idxs_1d (.included 2) (.excluded 5) 10 = some (2, 5)
    ∧ range2idxs_1d (.included 2) (.included 9) 10 = some (2, 10)
    ∧ range2idxs_1d (.included 0) (.included 10) 10 = none := by
  refine ⟨fun x => rfl, fun x => rfl, rfl, fun x size => rfl, fun x size => rfl,
    fun size => rfl, ?_, rfl, rfl, rfl, rfl, rfl⟩
  intro sb eb size
  constructor
  · intro h1 h2
    simp only [range2idxs_1d, if_pos h1, if_pos h2]
  · intro h
    rcases h with h | h
    · simp only [range2idxs_1d, if_neg (by omega : ¬ resolveStart sb ≤ resolveEnd eb size)]
    · rcases le_or_lt (resolveStart sb) (resolveEnd eb size) with hle | hlt
      · simp only [range2idxs_1d, if_pos hle, if_neg (by omega : ¬ resolveEnd eb size ≤ size)]
      · simp only [range2idxs_1d, if_neg (by omega : ¬ resolveStart sb ≤ resolveEnd eb size)]

/-- Claim C4 witness: a concrete application of the success branch. -/
theorem claim_C4_witness : range2idxs_1d (.included 2) (.excluded 7) 10 = some (2, 7) :=
  (claim_C4_range_normalization.2.2.2.2.2.2.1 (.included 2) (.excluded 7) 10).1
    (by decide) (by decide)

/-- Claim C6: for every rank k in {0..4}, index_append then index_cut at the
appended (new highest) axis k returns the original index, and index_prepend
then index_cut at axis 0 returns the original index. -/
theorem claim_C6_append_cut_roundtrip :
    (∀ (x : Index0d) (v : Nat),
        Index1d.index_cut (Index0d.index_append x v) 0 = some x
      ∧ Index1d.index_cut (Index0d.index_prepend x v) 0 = some x)
    ∧ (∀ (x : Index1d) (v : Nat),
        Index2d.index_cut (Index1d.index_append x v) 1 = some x
      ∧ Index2d.index_cut (Index1d.index_prepend x v) 0 = some x)
    ∧ (∀ (x : Index2d) (v : Nat),
        Index3d.index_cut (Index2d.index_append x v) 2 = some x
      ∧ Index3d.index_cut (Index2d.index_prepend x v) 0 = some x)
    ∧ (∀ (x : Index3d) (v : Nat),
        Index4d.index_cut (Index3d.index_append x v) 3 = some x
      ∧ Index4d.index_cut (Index3d.index_prepend x v) 0 = some x)
    ∧ (∀ (x : Index4d) (v : Nat),
        Index5d.index_cut (Index4d.index_append x v) 4 = some x
      ∧ Index5d.index_cut (Index4d.index_prepend x v) 0 = some x) :=
  ⟨fun _ _ => ⟨rfl, rfl⟩, fun _ _ => ⟨rfl, rfl⟩, fun _ _ => ⟨rfl, rfl⟩,
    fun _ _ => ⟨rfl, rfl⟩, fun _ _ => ⟨rfl, rfl⟩⟩

/-- Claim C7: for every rank variant (fixed 0 through 5 and IndexNd),
is_packed(S, T) returns true iff T equals to_packed_stride(S) exactly. -/
theorem claim_C7_is_packed_iff :
    (∀ S T : Index0d, Index0d.is_packed S T = true ↔ Index0d.to_packed_stride S = T)
    ∧ (∀ S T : Index1d, Index1d.is_packed S T = true ↔ Index1d.to_packed_stride S = T)
    ∧ (∀ S T : Index2d, Index2d.is_packed S T = true ↔ Index2d.to_packed_stride S = T)
    ∧ (∀ S T : Index3d, Index3d.is_packed S T = true ↔ Index3d.to_packed_stride S = T)
    ∧ (∀ S T : Index4d, Index4d.is_packed S T = true ↔ Index4d.to_packed_stride S = T)
    ∧ (∀ S T : Index5d, Index5d.is_packed S T = true ↔ Index5d.to_packed_stride S = T)
    ∧ (∀ s t : IndexNd, IndexNd.is_packed s t = true ↔ IndexNd.to_packed_stride s = t) := by
  refine ⟨?_, ?_, ?_, ?_, ?_, ?_, ?_⟩
  · intro S T
    exact ⟨fun _ => rfl, fun _ => rfl⟩
  · intro S T
    simp [Index1d.is_packed]
  · intro S T
    simp [Index2d.is_packed]
  · intro S T
    simp [Index3d.is_packed]
  · intro S T
    simp [Index4d.is_packed]
  · intro S T
    simp [Index5d.is_packed]
  · intro s t
    simp [IndexNd.is_packed]

/-- Claim C8: for the unique rank-0 index value, inside() is 1, outside() is
1, flat_len() is 1, and index_cut at any axis returns the unchanged rank-0
value without failing. -/
theorem claim_C8_rank0_conventions :
    Index0d.inside () = 1 ∧ Index0d.outside () = 1 ∧ Index0d.flat_len () = 1
    ∧ ∀ axis : Int, Index0d.index_cut () axis = some () :=
  ⟨rfl, rfl, rfl, fun _ => rfl⟩

/-- Claim C10: for the empty IndexNd value, inside() and outside() fail with
an out-of-bounds panic (modelled as none) rather than returning 1, unlike the
rank-0 fixed type, whose inside() and outside() are 1. -/
theorem claim_C10_nd_empty_inside_outside :
    IndexNd.inside [] = none ∧ IndexNd.outside [] = none
    ∧ Index0d.inside () = 1 ∧ Index0d.outside () = 1 :=
  ⟨rfl, rfl, rfl, rfl⟩

/-! ### The `axis as usize` cast -/

theorem usizeOfIsize_nonneg (a : Int) (h0 : 0 ≤ a) (h1 : a < 2 ^ 64) :
    usizeOfIsize a = a.toNat := by
  unfold usizeOfIsize
  omega

theorem usizeOfIsize_neg_big (a : Int) (h0 : -(2 ^ 63) ≤ a) (h1 : a < 0) :
    2 ^ 63 ≤ usizeOfIsize a := by
  unfold usizeOfIsize
  omega

/-- Claim C9: for every fixed rank k in {0..5}, index_at fails (none) for
every signed axis outside [0, k) — in the isize range — and in particular on
the rank-0 index it fails for every axis; for every axis inside [0, k) it
returns the component at that axis. -/
theorem claim_C9_index_at_bounds :
    (∀ axis : Int, Index0d.index_at () axis = none)
    ∧ (∀ (x : Index1d) (axis : Int),
        (0 ≤ axis → axis < 1 → Index1d.index_at x axis = some x)
      ∧ ((axis < 0 ∨ 1 ≤ axis) → Index1d.index_at x axis = none))
    ∧ (∀ (x : Index2d) (axis : Int), -(2 ^ 63) ≤ axis → axis < 2 ^ 63 →
        (0 ≤ axis → axis < 2 →
          Index2d.index_at x axis = some ((Index2d.to_nd x).getD axis.toNat 0))
      ∧ ((axis < 0 ∨ 2 ≤ axis) → Index2d.index_at x axis = none))
    ∧ (∀ (x : Index3d) (axis : Int), -(2 ^ 63) ≤ axis → axis < 2 ^ 63 →
        (0 ≤ axis → axis < 3 →
          Index3d.index_at x axis = some ((Index3d.to_nd x).getD axis.toNat 0))
      ∧ ((axis < 0 ∨ 3 ≤ axis) → Index3d.index_at x axis = none))
    ∧ (∀ (x : Index4d) (axis : Int), -(2 ^ 63) ≤ axis → axis < 2 ^ 63 →
        (0 ≤ axis → axis < 4 →
          Index4d.index_at x axis = some ((Index4d.to_nd x).getD axis.toNat 0))
      ∧ ((axis < 0 ∨ 4 ≤ axis) → Index4d.index_at x axis = none))
    ∧ (∀ (x : Index5d) (axis : Int), -(2 ^ 63) ≤ axis → axis < 2 ^ 63 →
        (0 ≤ axis → axis < 5 →
          Index5d.index_at x axis = some ((Index5d.to_nd x).getD axis.toNat 0))
      ∧ ((axis < 0 ∨ 5 ≤ axis) → Index5d.index_at x axis = none)) := by
  refine ⟨fun _ => rfl, ?_, ?_, ?_, ?_, ?_⟩
  · intro x axis
    constructor
    · intro h0 h1
      have : axis = 0 := by omega
      subst this
      rfl
    · intro h
      have : axis ≠ 0 := by omega
      simp [Index1d.index_at, this]
  · intro x axis hlo hhi
    constructor
    · intro h0 h2
      have hu : usizeOfIsize axis = axis.toNat := usizeOfIsize_nonneg axis h0 (by omega)
      simp only [Index2d.index_at, hu]
      have : axis = 0 ∨ axis = 1 := by omega
      rcases this with rfl | rfl
      · simp [Index2d.to_nd]
      · simp [Index2d.to_nd]
    · intro h
      rcases h with h | h
      · have hbig := usizeOfIsize_neg_big axis hlo h
        simp only [Index2d.index_at]
        rw [if_neg (by omega), if_neg (by omega)]
      · have hu : usizeOfIsize axis = axis.toNat := usizeOfIsize_nonneg axis (by omega) (by omega)
        simp only [Index2d.index_at, hu]
        rw [if_neg (by omega), if_neg (by omega)]
  · intro x axis hlo hhi
    constructor
    · intro h0 h3
      have hu : usizeOfIsize axis = axis.toNat := usizeOfIsize_nonneg axis h0 (by omega)
      simp only [Index3d.index_at, hu]
      have : axis = 0 ∨ axis = 1 ∨ axis = 2 := by omega
      rcases this with rfl | rfl | rfl
      · simp [Index3d.to_nd]
      · simp [Index3d.to_nd]
      · simp [Index3d.to_nd]
    · intro h
      rcases h with h | h
      · have hbig := usizeOfIsize_neg_big axis hlo h
        simp only [Index3d.index_at]
        rw [if_neg (by omega), if_neg (by omega), if_neg (by omega)]
      · have hu : usizeOfIsize axis = axis.toNat := usizeOfIsize_nonneg axis (by omega) (by omega)
        simp only [Index3d.index_at, hu]
        rw [if_neg (by omega), if_neg (by omega), if_neg (by omega)]
  · intro x axis hlo hhi
    constructor
    · intro h0 h4
      have hu : usizeOfIsize axis = axis.toNat := usizeOfIsize_nonneg axis h0 (by omega)
      simp only [Index4d.index_at, hu]
      have : axis = 0 ∨ axis = 1 ∨ axis = 2 ∨ axis = 3 := by omega
      rcases this with rfl | rfl | rfl | rfl
      · simp [Index4d.to_nd]
      · simp [Index4d.to_nd]
      · simp [Index4d.to_nd]
      · simp [Index4d.to_nd]
    · intro h
      rcases h with h | h
      · have hbig := usizeOfIsize_neg_big axis hlo h
        simp only [Index4d.index_at]
        rw [if_neg (by omega), if_neg (by omega), if_neg (by omega), if_neg (by omega)]
      · have hu : usizeOfIsize axis = axis.toNat := usizeOfIsize_nonneg axis (by omega) (by omega)
        simp only [Index4d.index_at, hu]
        rw [if_neg (by omega), if_neg (by omega), if_neg (by omega), if_neg (by omega)]
  · intro x axis hlo hhi
    constructor
    · intro h0 h5
      have hu : usizeOfIsize axis = axis.toNat := usizeOfIsize_nonneg axis h0 (by omega)
      simp only [Index5d.index_at, hu]
      have : axis = 0 ∨ axis = 1 ∨ axis = 2 ∨ axis = 3 ∨ axis = 4 := by omega
      rcases this with rfl | rfl | rfl | rfl | rfl
      · simp [Index5d.to_nd]
      · simp [Index5d.to_nd]
      · simp [Index5d.to_nd]
      · simp [Index5d.to_nd]
      · simp [Index5d.to_nd]
    · intro h
      rcases h with h | h
      · have hbig := usizeOfIsize_neg_big axis hlo h
        simp only [Index5d.index_at]
        rw [if_neg (by omega), if_neg (by omega), if_neg (by omega), if_neg (by omega),
          if_neg (by omega)]
      · have hu : usizeOfIsize axis = axis.toNat := usizeOfIsize_nonneg axis (by omega) (by omega)
        simp only [Index5d.index_at, hu]
        rw [if_neg (by omega), if_neg (by omega), if_neg (by omega), if_neg (by omega),
          if_neg (by omega)]

/-- Claim C9 witness: a negative axis on a rank-2 index panics (none). -/
theorem claim_C9_witness : Index2d.index_at (7, 8) (-1) = none :=
  (claim_C9_index_at_bounds.2.2.1 (7, 8) (-1) (by decide) (by decide)).2 (Or.inl (by decide))

/-! ### splice_at helpers -/

theorem intRange_eq_nil {a b : Int} (h : b ≤ a) : IndexNd.intRange a b = [] := by
  simp [IndexNd.intRange, show (b - a).toNat = 0 from by omega]

theorem intRange_eq_cons {a b : Int} (h : a < b) :
    IndexNd.intRange a b = a :: IndexNd.intRange (a + 1) b := by
  simp only [IndexNd.intRange]
  rw [show (b - a).toNat = (b - (a + 1)).toNat + 1 from by omega, List.range_succ_eq_map]
  simp only [List.map_cons, List.map_map, Nat.cast_zero, add_zero]
  congr 1
  congr 1
  funext k
  simp only [Function.comp_apply]
  omega

theorem mem_intRange {a b i : Int} : i ∈ IndexNd.intRange a b ↔ a ≤ i ∧ i < b := by
  simp only [IndexNd.intRange, List.mem_map, List.mem_range]
  constructor
  · rintro ⟨k, hk, rfl⟩
    omega
  · intro h
    exact ⟨(i - a).toNat, by omega, by omega⟩

theorem nd_index_at_some (x : IndexNd) (i : Int) (h0 : 0 ≤ i)
    (h1 : i < (x.length : Int)) (hcast : i < 2 ^ 64) :
    IndexNd.index_at x i = some (x.getD i.toNat 0) := by
  have hu : usizeOfIsize i = i.toNat := usizeOfIsize_nonneg i h0 hcast
  have hlt : i.toNat < x.length := by omega
  simp only [IndexNd.index_at, hu]
  rw [dif_pos hlt]
  congr 1
  rw [List.getD_eq_getElem x 0 hlt]
  simp [List.get_eq_getElem]

theorem nd_index_at_none (x : IndexNd) (i : Int) (hL : (x.length : Int) < 2 ^ 63)
    (h : i < 0 ∨ (x.length : Int) ≤ i) (hlo : -(2 ^ 63) ≤ i) (hhi : i < 2 ^ 63) :
    IndexNd.index_at x i = none := by
  have hbig : ¬ (usizeOfIsize i < x.length) := by
    unfold usizeOfIsize
    omega
  simp only [IndexNd.index_at]
  rw [dif_neg hbig]

theorem collect_eq_none (x : IndexNd) (i : Int) :
    ∀ l : List Int, i ∈ l → IndexNd.index_at x i = none → IndexNd.collect x l = none := by
  intro l
  induction l with
  | nil =>
    intro h _
    simp at h
  | cons j rest ih =>
    intro hmem hnone
    rcases List.mem_cons.mp hmem with rfl | hmem2
    · simp [IndexNd.collect, hnone]
    · cases hcase : IndexNd.index_at x j <;>
        simp [IndexNd.collect, hcase, ih hmem2 hnone]

theorem collect_intRange (x : IndexNd) (hL : (x.length : Int) < 2 ^ 63) :
    ∀ (n : Nat) (a b : Int), (b - a).toNat = n → 0 ≤ a → b ≤ (x.length : Int) →
      IndexNd.collect x (IndexNd.intRange a b) = some ((x.take b.toNat).drop a.toNat) := by
  intro n
  induction n with
  | zero =>
    intro a b hn h0 hb
    rw [intRange_eq_nil (by omega)]
    refine Eq.trans rfl (congrArg some ?_)
    refine (List.drop_eq_nil_of_le ?_).symm
    rw [List.length_take]
    omega
  | succ n ih =>
    intro a b hn h0 hb
    rw [intRange_eq_cons (by omega)]
    have ha : IndexNd.index_at x a = some (x.getD a.toNat 0) :=
      nd_index_at_some x a h0 (by omega) (by omega)
    have hrec := ih (a + 1) b (by omega) (by omega) hb
    simp only [IndexNd.collect, ha, hrec, Option.some_bind]
    have halt : a.toNat < (x.take b.toNat).length := by
      rw [List.length_take]
      omega
    rw [List.drop_eq_getElem_cons halt]
    refine congrArg some ?_
    congr 1
    · rw [List.getElem_take, List.getD_eq_getElem x 0 (by omega)]
    · congr 1
      omega

/-- Claim C5 counterexample: on the IndexNd value [5] (dim 1), the negative
axis -1 makes splice_at fail (the selection branch evaluates
components[(-1) as usize], an out-of-bounds panic) instead of returning an
empty selection. -/
theorem claim_C5_counterexample : IndexNd.splice_at [5] (-1) = none := by decide

/-- Claim C5 amended: for every axis in [0, dim], splice_at succeeds and the
concatenation prefix ++ selection ++ suffix reconstructs the components, with
the selection empty exactly when axis = dim; for every negative axis and
every axis greater than dim (within the isize range, with dim in the Rust
Vec-length range), splice_at fails with an out-of-bounds panic instead of
returning an empty selection. -/
theorem claim_C5_amended :
    ∀ (x : IndexNd) (axis : Int), (x.length : Int) < 2 ^ 63 →
      ((0 ≤ axis → axis ≤ (x.length : Int) →
        ∃ p s q, IndexNd.splice_at x axis = some (p, s, q) ∧ p ++ s ++ q = x
          ∧ (s = [] ↔ axis = (x.length : Int)))
      ∧ (-(2 ^ 63) ≤ axis → axis < 0 → IndexNd.splice_at x axis = none)
      ∧ ((x.length : Int) < axis → IndexNd.splice_at x axis = none)) := by
  intro x axis hL
  refine ⟨?_, ?_, ?_⟩
  · intro h0 hle
    have hpre := collect_intRange x hL (axis - 0).toNat 0 axis rfl (le_refl 0) hle
    simp only [Int.toNat_zero, List.drop_zero] at hpre
    rcases lt_or_eq_of_le hle with hlt | heq
    · have hsel : IndexNd.index_at x axis = some (x.getD axis.toNat 0) :=
        nd_index_at_some x axis h0 hlt (by omega)
      have hsuf := collect_intRange x hL ((x.length : Int) - (axis + 1)).toNat (axis + 1)
        (x.length : Int) rfl (by omega) (le_refl _)
      rw [show ((x.length : Int)).toNat = x.length from by omega, List.take_length,
        show (axis + 1).toNat = axis.toNat + 1 from by omega] at hsuf
      refine ⟨x.take axis.toNat, [x.getD axis.toNat 0], x.drop (axis.toNat + 1), ?_, ?_, ?_⟩
      · simp [IndexNd.splice_at, hpre, hsel, hsuf, hlt]
      · have hltn : axis.toNat < x.length := by omega
        rw [List.getD_eq_getElem x 0 hltn]
        conv_rhs => rw [← List.take_append_drop axis.toNat x]
        rw [List.drop_eq_getElem_cons hltn]
        simp
      · constructor
        · intro hc
          simp at hc
        · intro hc
          exact absurd hc (by omega)
    · have hnotlt : ¬ (axis < (x.length : Int)) := by omega
      have hsuf : IndexNd.collect x (IndexNd.intRange (axis + 1) (x.length : Int)) = some [] := by
        rw [intRange_eq_nil (by omega)]
        rfl
      rw [show axis.toNat = x.length from by omega, List.take_length] at hpre
      refine ⟨x, [], [], ?_, by simp, ?_⟩
      · simp [IndexNd.splice_at, hpre, hnotlt, hsuf]
      · simp [heq]
  · intro hlo hneg
    have hpre : IndexNd.collect x (IndexNd.intRange 0 axis) = some [] := by
      rw [intRange_eq_nil (by omega)]
      rfl
    have hcond : axis < (x.length : Int) := by omega
    have hsel : IndexNd.index_at x axis = none :=
      nd_index_at_none x axis hL (Or.inl hneg) hlo (by omega)
    simp [IndexNd.splice_at, hpre, hcond, hsel]
  · intro hgt
    have hmem : (x.length : Int) ∈ IndexNd.intRange 0 axis :=
      mem_intRange.mpr ⟨by omega, hgt⟩
    have hnone : IndexNd.index_at x (x.length : Int) = none :=
      nd_index_at_none x _ hL (Or.inr (le_refl _)) (by omega) hL
    have hpre := collect_eq_none x (x.length : Int) _ hmem hnone
    simp [IndexNd.splice_at, hpre]

/-- Claim C5 witness: on [5], the axis 2 (greater than dim = 1) fails. -/
theorem claim_C5_witness : IndexNd.splice_at [5] 2 = none :=
  (claim_C5_amended [5] 2 (by decide)).2.2 (by decide)
